import Mathlib

/-
  Verification development for cyberflux.c (CyberFlux cyber-café simulator).

  The program runs concurrent client sessions against three counting
  semaphores (PCs / workstations, VR headsets, gaming chairs / seats).
  Each session executes one of two acquisition protocols:
    allocateResourcesNoDeadlock  (forceDeadlock = 0, "all or nothing")
    allocateResourcesDeadlock    (forceDeadlock = 1, conflicting orders)
  and records its outcome in mutex-protected global statistics.

  The embedding below models one session's execution as a function of an
  environment schedule: the schedule records, for each semaphore operation
  the session performs, whether the surrounding concurrent environment lets
  it succeed (timed wait within the deadline, non-blocking trywait, blocking
  wait completing at all) and what the measured elapsed times are.  A
  session that blocks forever, or whose retry loop is not resolved by the
  schedule, yields none.  A terminating session yields the chronological
  list of its semaphore acquire/release events, its outcome, and the list
  of statistics updates it performs under the stats mutex.
-/

namespace CyberFlux

/-- The three resource pools: PCs (workstations), VR headsets, gaming chairs
(seats).  Capacities NUM_PC = 10, NUM_VR = 6, NUM_GC = 8. -/
inductive Resource
  | PC
  | VR
  | GC
deriving DecidableEq

/-- Client categories, from the ClientType enum. -/
inductive ClientType
  | GAMER
  | FREELANCER
  | STUDENT
deriving DecidableEq

/-- A semaphore event performed by a session: a successful sem_wait /
sem_timedwait / sem_trywait decrement, or a sem_post increment. -/
inductive Event
  | acquire (r : Resource)
  | release (r : Resource)
deriving DecidableEq

/-- Reason a session abandons (reneges). -/
inductive AbandonReason
  | TimedOutOnPrimary
  | TimedOutOnSecondary
deriving DecidableEq

/-- Terminal outcome of a session: Served with the list of resources held
(in acquisition order) and the measured wait, or Abandoned. -/
inductive Outcome
  | Served (held : List Resource) (waitMs : Nat)
  | Abandoned (reason : AbandonReason)
deriving DecidableEq

/-- The global statistics counters guarded by mutexStats:
totalServedClients, starvedClients, pcUses, vrUses, gcUses,
totalWaitingTime. -/
inductive Counter
  | served
  | starved
  | pcUses
  | vrUses
  | gcUses
  | waitTime
deriving DecidableEq

/-- One mutex-protected update to a statistics counter.  The source only
ever adds: `ctr += amount` with amount = 1 or amount = waitMs. -/
structure StatUpdate where
  ctr : Counter
  amount : Int
deriving DecidableEq

/-- Everything observable about one terminated session: its semaphore
events in order, its outcome, and its statistics updates in order. -/
structure SessionRun where
  events : List Event
  outcome : Outcome
  updates : List StatUpdate
deriving DecidableEq

/-- MAX_WAIT_BEFORE_GIVEUP: milliseconds a client waits for the PC before
giving up. -/
def MAX_WAIT_BEFORE_GIVEUP : Nat := 1500

/-- Run of a session that abandons on the primary (PC) timed acquire:
tryAcquirePC returned 0, so no event happened (pcUses is only incremented
after a successful sem_timedwait) and only starvedClients++ runs. -/
def abandonPrimaryRun : SessionRun :=
  ⟨[], Outcome.Abandoned AbandonReason.TimedOutOnPrimary,
   [⟨Counter.starved, 1⟩]⟩

/-- Run of a STUDENT session that got the PC: tryAcquirePC succeeds
(pcUses++), it sleeps, posts the PC back, then served++ and
totalWaitingTime += waitMs. -/
def studentServedRun (w : Nat) : SessionRun :=
  ⟨[Event.acquire Resource.PC, Event.release Resource.PC],
   Outcome.Served [Resource.PC] w,
   [⟨Counter.pcUses, 1⟩, ⟨Counter.served, 1⟩, ⟨Counter.waitTime, (w : Int)⟩]⟩

/-- One iteration of the all-or-nothing secondary loop, as resolved by the
environment: whether sem_trywait(&semVR) succeeded, whether
sem_trywait(&semGC) succeeded, and the elapsed milliseconds since arrival
observed at the timeout check of this pass (consulted only when the pass
fails). -/
structure SecPass where
  vrOk : Bool
  gcOk : Bool
  elapsed : Nat
deriving DecidableEq

/-- Semaphore events of a FAILED pass of the secondary loop: the trywaits
that succeeded acquired VR and/or GC (in that order), and then the failure
branch posts back exactly what it grabbed, VR first then GC. -/
def passFailEvents (p : SecPass) : List Event :=
  (if p.vrOk then [Event.acquire Resource.VR] else []) ++
  (if p.gcOk then [Event.acquire Resource.GC] else []) ++
  (if p.vrOk then [Event.release Resource.VR] else []) ++
  (if p.gcOk then [Event.release Resource.GC] else [])

/-- The `while (!gotAll)` loop of allocateResourcesNoDeadlock, driven by
the schedule of passes.  A pass where both trywaits succeed ends the loop
with VR and GC held (result true).  A failed pass releases its partial
grabs; if elapsed > MAX_WAIT_BEFORE_GIVEUP the loop ends in abandonment
(result false), otherwise it usleeps and retries with the next pass.
If the schedule runs out of passes the loop has not terminated: none. -/
def secondaryLoop : List SecPass → Option (List Event × Bool)
  | [] => none
  | p :: rest =>
    if p.vrOk && p.gcOk then
      some ([Event.acquire Resource.VR, Event.acquire Resource.GC], true)
    else if MAX_WAIT_BEFORE_GIVEUP < p.elapsed then
      some (passFailEvents p, false)
    else
      match secondaryLoop rest with
      | none => none
      | some (es, b) => some (passFailEvents p ++ es, b)

/-- Environment schedule of one session of allocateResourcesNoDeadlock:
whether tryAcquirePC succeeded within its 1500 ms deadline, the resolved
passes of the secondary loop, and the waitMs measured on success. -/
structure NdSchedule where
  pcOk : Bool
  passes : List SecPass
  waitMs : Nat
deriving DecidableEq

/-- Run of a GAMER/FREELANCER session served by the all-or-nothing path:
PC acquired first, then the loop events `es`, ending with VR and GC held
(vrUses++ and gcUses++ happen in that successful pass); after the usage
sleep it posts GC, VR, PC in that order, then served++ and
totalWaitingTime += waitMs. -/
def servedMultiRun (es : List Event) (w : Nat) : SessionRun :=
  ⟨Event.acquire Resource.PC ::
     es ++ [Event.release Resource.GC, Event.release Resource.VR,
            Event.release Resource.PC],
   Outcome.Served [Resource.PC, Resource.VR, Resource.GC] w,
   [⟨Counter.pcUses, 1⟩, ⟨Counter.vrUses, 1⟩, ⟨Counter.gcUses, 1⟩,
    ⟨Counter.served, 1⟩, ⟨Counter.waitTime, (w : Int)⟩]⟩

/-- Run of a GAMER/FREELANCER session abandoning on the secondaries: PC
acquired first (pcUses++), the loop events `es` ending in a timed-out
failed pass (all partial grabs already posted back inside `es`), then the
PC is posted back and starvedClients++ runs. -/
def abandonSecondaryRun (es : List Event) : SessionRun :=
  ⟨Event.acquire Resource.PC :: es ++ [Event.release Resource.PC],
   Outcome.Abandoned AbandonReason.TimedOutOnSecondary,
   [⟨Counter.pcUses, 1⟩, ⟨Counter.starved, 1⟩]⟩

/-- The GAMER/FREELANCER tail of allocateResourcesNoDeadlock after the PC
is held: run the secondary loop and package the result. -/
def ndMulti (s : NdSchedule) : Option SessionRun :=
  match secondaryLoop s.passes with
  | none => none
  | some (es, true) => some (servedMultiRun es s.waitMs)
  | some (es, false) => some (abandonSecondaryRun es)

/-- allocateResourcesNoDeadlock (forceDeadlock = 0, all-or-nothing):
first tryAcquirePC with the 1500 ms timeout — on failure starvedClients++
and return with nothing held; a STUDENT then just uses and releases the
PC; a GAMER or FREELANCER runs the trywait loop for VR and GC. -/
def allocNoDeadlock (t : ClientType) (s : NdSchedule) : Option SessionRun :=
  if s.pcOk then
    match t with
    | ClientType.STUDENT => some (studentServedRun s.waitMs)
    | ClientType.GAMER => ndMulti s
    | ClientType.FREELANCER => ndMulti s
  else some abandonPrimaryRun

/-- Environment schedule of one session of allocateResourcesDeadlock:
whether its first blocking sem_wait ever completes, whether its second
blocking sem_wait ever completes, whether tryAcquirePC succeeded within
its deadline, and the waitMs measured on success.  For a GAMER the
blocking waits are GC then (after the PC) VR; for a FREELANCER they are
VR then GC (both before the PC); a STUDENT has none. -/
structure DlSchedule where
  blockA : Bool
  blockB : Bool
  pcOk : Bool
  waitMs : Nat
deriving DecidableEq

/-- Run of a GAMER abandoning in the conflicting-order mode: GC was
acquired by the blocking wait (gcUses++), tryAcquirePC timed out, the GC
is posted back and starvedClients++ runs. -/
def gamerDlAbandonRun : SessionRun :=
  ⟨[Event.acquire Resource.GC, Event.release Resource.GC],
   Outcome.Abandoned AbandonReason.TimedOutOnPrimary,
   [⟨Counter.gcUses, 1⟩, ⟨Counter.starved, 1⟩]⟩

/-- Run of a GAMER served in the conflicting-order mode: GC → PC → VR
acquired in that order (gcUses++, pcUses++, vrUses++ at each step), then
released in reverse order VR, PC, GC; served++ and waitMs recorded. -/
def gamerDlServedRun (w : Nat) : SessionRun :=
  ⟨[Event.acquire Resource.GC, Event.acquire Resource.PC,
    Event.acquire Resource.VR, Event.release Resource.VR,
    Event.release Resource.PC, Event.release Resource.GC],
   Outcome.Served [Resource.GC, Resource.PC, Resource.VR] w,
   [⟨Counter.gcUses, 1⟩, ⟨Counter.pcUses, 1⟩, ⟨Counter.vrUses, 1⟩,
    ⟨Counter.served, 1⟩, ⟨Counter.waitTime, (w : Int)⟩]⟩

/-- Run of a FREELANCER abandoning in the conflicting-order mode: VR and
GC were acquired by the blocking waits (vrUses++, gcUses++), tryAcquirePC
timed out, GC then VR are posted back and starvedClients++ runs. -/
def freelancerDlAbandonRun : SessionRun :=
  ⟨[Event.acquire Resource.VR, Event.acquire Resource.GC,
    Event.release Resource.GC, Event.release Resource.VR],
   Outcome.Abandoned AbandonReason.TimedOutOnPrimary,
   [⟨Counter.vrUses, 1⟩, ⟨Counter.gcUses, 1⟩, ⟨Counter.starved, 1⟩]⟩

/-- Run of a FREELANCER served in the conflicting-order mode: VR → GC → PC
acquired in that order (vrUses++, gcUses++, pcUses++ at each step), then
released in reverse order PC, GC, VR; served++ and waitMs recorded. -/
def freelancerDlServedRun (w : Nat) : SessionRun :=
  ⟨[Event.acquire Resource.VR, Event.acquire Resource.GC,
    Event.acquire Resource.PC, Event.release Resource.PC,
    Event.release Resource.GC, Event.release Resource.VR],
   Outcome.Served [Resource.VR, Resource.GC, Resource.PC] w,
   [⟨Counter.vrUses, 1⟩, ⟨Counter.gcUses, 1⟩, ⟨Counter.pcUses, 1⟩,
    ⟨Counter.served, 1⟩, ⟨Counter.waitTime, (w : Int)⟩]⟩

/-- allocateResourcesDeadlock (forceDeadlock = 1, conflicting orders):
STUDENT takes only the PC (timed); GAMER takes GC (blocking) → PC (timed,
releasing GC on failure) → VR (blocking); FREELANCER takes VR (blocking)
→ GC (blocking) → PC (timed, releasing GC and VR on failure).  A blocking
wait the environment never satisfies blocks the session forever: none. -/
def allocDeadlock (t : ClientType) (s : DlSchedule) : Option SessionRun :=
  match t with
  | ClientType.STUDENT =>
    if s.pcOk then some (studentServedRun s.waitMs)
    else some abandonPrimaryRun
  | ClientType.GAMER =>
    if s.blockA then
      if s.pcOk then
        if s.blockB then some (gamerDlServedRun s.waitMs) else none
      else some gamerDlAbandonRun
    else none
  | ClientType.FREELANCER =>
    if s.blockA then
      if s.blockB then
        if s.pcOk then some (freelancerDlServedRun s.waitMs)
        else some freelancerDlAbandonRun
      else none
    else none

/-- Number of successful acquires of resource r in an event list. -/
def acqCount (es : List Event) (r : Resource) : Nat :=
  es.countP (fun e => decide (e = Event.acquire r))

/-- Number of releases (sem_post) of resource r in an event list. -/
def relCount (es : List Event) (r : Resource) : Nat :=
  es.countP (fun e => decide (e = Event.release r))

/-- Net amount a list of statistics updates adds to one counter. -/
def ctrDelta (us : List StatUpdate) (c : Counter) : Int :=
  ((us.filter (fun u => decide (u.ctr = c))).map StatUpdate.amount).sum

/-- Stack-discipline check: scanning the events with a stack of currently
held resources, every release must match the most recently acquired
still-held resource, and the stack must be empty at the end.  This is
exactly "releases happen in strict reverse order of acquisition". -/
def lifoOk : List Event → List Resource → Bool
  | [], stk => stk.isEmpty
  | Event.acquire r :: es, stk => lifoOk es (r :: stk)
  | Event.release r :: es, stk =>
    match stk with
    | [] => false
    | top :: rest => if top = r then lifoOk es rest else false

/-- The resources acquired by an event list, in chronological order. -/
def acquiresOf (es : List Event) : List Resource :=
  es.filterMap (fun e =>
    match e with
    | Event.acquire r => some r
    | Event.release _ => none)

/-- Pool capacities: pc = NUM_PC, vr = NUM_VR, gc = NUM_GC at the default
configuration, but kept abstract for degenerate scenarios. -/
structure Pools where
  pc : Nat
  vr : Nat
  gc : Nat
deriving DecidableEq

/-- The capacities the program initialises the semaphores with:
sem_init(&semPC,0,10), sem_init(&semVR,0,6), sem_init(&semGC,0,8). -/
def defaultCaps : Pools := ⟨10, 6, 8⟩

/-- Capacity of one pool. -/
def capOf (caps : Pools) : Resource → Nat
  | Resource.PC => caps.pc
  | Resource.VR => caps.vr
  | Resource.GC => caps.gc

/-- Availability of pool r after the sessions in `runs` have all
terminated, starting from full pools: capacity plus every post minus
every successful wait, over all sessions. -/
def finalAvail (caps : Pools) (runs : List SessionRun) (r : Resource) : Int :=
  (capOf caps r : Int) +
    (runs.map (fun run =>
      (relCount run.events r : Int) - (acqCount run.events r : Int))).sum

/-- Schedule a single session meets when it is alone in the simulation:
availability never changes under it, so a timed or non-blocking wait on
pool r succeeds exactly when capOf caps r > 0, every trywait pass of the
secondary loop sees the same availabilities, and when the mandatory pair
is not fully available the retry loop is still failing when the elapsed
time first exceeds MAX_WAIT_BEFORE_GIVEUP. -/
def singleNdSchedule (caps : Pools) (w : Nat) : NdSchedule :=
  ⟨decide (0 < caps.pc),
   if 0 < caps.vr ∧ 0 < caps.gc then [⟨true, true, 0⟩]
   else [⟨decide (0 < caps.vr), decide (0 < caps.gc),
          MAX_WAIT_BEFORE_GIVEUP + 1⟩],
   w⟩

/-- Schedule a single session meets in the conflicting-order mode when it
is alone: a blocking wait completes exactly when its pool has a unit
(otherwise it blocks forever), and the timed PC wait succeeds exactly
when the PC pool has a unit. -/
def singleDlSchedule (t : ClientType) (caps : Pools) (w : Nat) : DlSchedule :=
  match t with
  | ClientType.STUDENT => ⟨true, true, decide (0 < caps.pc), w⟩
  | ClientType.GAMER =>
    ⟨decide (0 < caps.gc), decide (0 < caps.vr), decide (0 < caps.pc), w⟩
  | ClientType.FREELANCER =>
    ⟨decide (0 < caps.vr), decide (0 < caps.gc), decide (0 < caps.pc), w⟩

/-- clientRoutine for a session running alone: dispatch on
gParams.forceDeadlock to one of the two allocators, against the schedule
a solitary session meets. -/
def clientRoutineSingle (force : Bool) (t : ClientType) (caps : Pools)
    (w : Nat) : Option SessionRun :=
  if force then allocDeadlock t (singleDlSchedule t caps w)
  else allocNoDeadlock t (singleNdSchedule caps w)

/-- SimulationParameters: {minClients, maxClients, openHours,
forceDeadlock, verbosity}, all C ints. -/
structure SimulationParameters where
  minClients : Int
  maxClients : Int
  openHours : Int
  forceDeadlock : Int
  verbosity : Int
deriving DecidableEq

/-- The initial value of gParams: {20, 50, 8, 0, 0}. -/
def gParamsInit : SimulationParameters := ⟨20, 50, 8, 0, 0⟩

/-- Value of the leading decimal digits of a character list, C atoi
style. -/
def digitsVal : List Char → Nat → Nat
  | c :: cs, acc =>
    if c.isDigit then digitsVal cs (acc * 10 + (c.toNat - 48)) else acc
  | [], acc => acc

/-- C atoi: skip leading spaces, optional sign, leading digits; 0 when no
digits. -/
def atoi (s : String) : Int :=
  match s.toList.dropWhile (fun c => c = ' ') with
  | '-' :: rest => - (digitsVal rest 0 : Int)
  | '+' :: rest => (digitsVal rest 0 : Int)
  | cs => (digitsVal cs 0 : Int)

/-- parseArgs over the argument vector (argv[1..]): -h or --help prints the
help and exits (none); each recognised option consumes the next argument
when there is one (otherwise it falls through to the unknown-parameter
branch, which only prints a warning); unknown arguments change nothing. -/
def parseArgs : List String → SimulationParameters → Option SimulationParameters
  | [], p => some p
  | [a], p =>
    if a = "-h" || a = "--help" then none else some p
  | a :: v :: rest, p =>
    if a = "-h" || a = "--help" then none
    else if a = "--clients-min" then
      parseArgs rest { p with minClients := atoi v }
    else if a = "--clients-max" then
      parseArgs rest { p with maxClients := atoi v }
    else if a = "--open-hours" then
      parseArgs rest { p with openHours := atoi v }
    else if a = "--force-deadlock" then
      parseArgs rest { p with forceDeadlock := atoi v }
    else if a = "--verbose" then
      parseArgs rest { p with verbosity := atoi v }
    else parseArgs (v :: rest) p

/-- totalSimSecs = openHours * 3, clamped below by 1. -/
def totalSimSecs (p : SimulationParameters) : Int :=
  if p.openHours * 3 < 1 then 1 else p.openHours * 3

/-- totalClientsToCreate in main: when maxClients >= minClients, a uniform
draw rand() % (max - min + 1) + min; otherwise silently minClients. -/
def totalClientsToCreate (p : SimulationParameters) (r : Nat) : Int :=
  if p.minClients ≤ p.maxClients then
    (Int.ofNat (r % (p.maxClients - p.minClients + 1).toNat)) + p.minClients
  else p.minClients

/-! Helper lemmas about the secondary loop and event bookkeeping. -/

theorem passFailEvents_balanced (p : SecPass) (r : Resource) :
    acqCount (passFailEvents p) r = relCount (passFailEvents p) r := by
  obtain ⟨v, g, e⟩ := p
  cases v <;> cases g <;> cases r <;> rfl

theorem passFailEvents_lifo (p : SecPass) (hp : (p.vrOk && p.gcOk) = false)
    (rest : List Event) (stk : List Resource) :
    lifoOk (passFailEvents p ++ rest) stk = lifoOk rest stk := by
  obtain ⟨v, g, e⟩ := p
  cases v <;> cases g <;> first | rfl | simp at hp

theorem secondaryLoop_false_balance :
    ∀ (ps : List SecPass) (es : List Event),
      secondaryLoop ps = some (es, false) →
      ∀ r, acqCount es r = relCount es r := by
  intro ps
  induction ps with
  | nil => intro es h r; simp [secondaryLoop] at h
  | cons p rest ih =>
    intro es h r
    rw [secondaryLoop] at h
    by_cases hb : (p.vrOk && p.gcOk) = true
    · rw [if_pos hb] at h
      simp only [Option.some.injEq, Prod.mk.injEq] at h
      exact absurd h.2 (by simp)
    · rw [if_neg hb] at h
      by_cases ht : MAX_WAIT_BEFORE_GIVEUP < p.elapsed
      · rw [if_pos ht] at h
        simp only [Option.some.injEq, Prod.mk.injEq] at h
        obtain ⟨rfl, -⟩ := h
        exact passFailEvents_balanced p r
      · rw [if_neg ht] at h
        cases hl : secondaryLoop rest with
        | none => rw [hl] at h; cases h
        | some eb =>
          obtain ⟨es2, b2⟩ := eb
          rw [hl] at h
          simp only [Option.some.injEq, Prod.mk.injEq] at h
          obtain ⟨rfl, rfl⟩ := h
          have h1 := passFailEvents_balanced p r
          have h2 := ih es2 hl r
          simp only [acqCount, relCount, List.countP_append] at h1 h2 ⊢
          omega

theorem secondaryLoop_true_counts :
    ∀ (ps : List SecPass) (es : List Event),
      secondaryLoop ps = some (es, true) →
      ∀ r, acqCount es r =
        relCount es r + (if r = Resource.PC then 0 else 1) := by
  intro ps
  induction ps with
  | nil => intro es h r; simp [secondaryLoop] at h
  | cons p rest ih =>
    intro es h r
    rw [secondaryLoop] at h
    by_cases hb : (p.vrOk && p.gcOk) = true
    · rw [if_pos hb] at h
      simp only [Option.some.injEq, Prod.mk.injEq] at h
      obtain ⟨rfl, -⟩ := h
      cases r <;> rfl
    · rw [if_neg hb] at h
      by_cases ht : MAX_WAIT_BEFORE_GIVEUP < p.elapsed
      · rw [if_pos ht] at h
        simp only [Option.some.injEq, Prod.mk.injEq] at h
        exact absurd h.2 (by simp)
      · rw [if_neg ht] at h
        cases hl : secondaryLoop rest with
        | none => rw [hl] at h; cases h
        | some eb =>
          obtain ⟨es2, b2⟩ := eb
          rw [hl] at h
          simp only [Option.some.injEq, Prod.mk.injEq] at h
          obtain ⟨rfl, rfl⟩ := h
          have h1 := passFailEvents_balanced p r
          have h2 := ih es2 hl r
          simp only [acqCount, relCount, List.countP_append] at h1 h2 ⊢
          omega

theorem secondaryLoop_lifo :
    ∀ (ps : List SecPass) (es : List Event) (b : Bool),
      secondaryLoop ps = some (es, b) →
      ∀ (rest : List Event) (stk : List Resource),
        lifoOk (es ++ rest) stk =
          if b then lifoOk rest (Resource.GC :: Resource.VR :: stk)
          else lifoOk rest stk := by
  intro ps
  induction ps with
  | nil => intro es b h; simp [secondaryLoop] at h
  | cons p rest ih =>
    intro es b h rst stk
    rw [secondaryLoop] at h
    by_cases hb : (p.vrOk && p.gcOk) = true
    · rw [if_pos hb] at h
      simp only [Option.some.injEq, Prod.mk.injEq] at h
      obtain ⟨rfl, rfl⟩ := h
      rfl
    · rw [if_neg hb] at h
      by_cases ht : MAX_WAIT_BEFORE_GIVEUP < p.elapsed
      · rw [if_pos ht] at h
        simp only [Option.some.injEq, Prod.mk.injEq] at h
        obtain ⟨rfl, rfl⟩ := h
        rw [passFailEvents_lifo p (by simpa using hb)]
        simp
      · rw [if_neg ht] at h
        cases hl : secondaryLoop rest with
        | none => rw [hl] at h; cases h
        | some eb =>
          obtain ⟨es2, b2⟩ := eb
          rw [hl] at h
          simp only [Option.some.injEq, Prod.mk.injEq] at h
          obtain ⟨rfl, rfl⟩ := h
          rw [List.append_assoc, passFailEvents_lifo p (by simpa using hb)]
          exact ih es2 b2 hl rst stk

theorem last_of_concat (l : List Event) (a : Event) :
    (l ++ [a]).getLast? = some a := by
  induction l with
  | nil => rfl
  | cons x xs ih =>
    rw [List.cons_append, List.getLast?_cons, ih]
    cases xs <;> simp_all

theorem ndMulti_cases (s : NdSchedule) (run : SessionRun)
    (h : ndMulti s = some run) :
    (∃ es, secondaryLoop s.passes = some (es, true) ∧
       run = servedMultiRun es s.waitMs) ∨
    (∃ es, secondaryLoop s.passes = some (es, false) ∧
       run = abandonSecondaryRun es) := by
  unfold ndMulti at h
  cases hl : secondaryLoop s.passes with
  | none => rw [hl] at h; cases h
  | some eb =>
    obtain ⟨es, b⟩ := eb
    rw [hl] at h
    cases b
    · exact Or.inr ⟨es, rfl, (Option.some.inj h).symm⟩
    · exact Or.inl ⟨es, rfl, (Option.some.inj h).symm⟩

theorem allocNoDeadlock_cases (t : ClientType) (s : NdSchedule)
    (run : SessionRun) (h : allocNoDeadlock t s = some run) :
    (s.pcOk = false ∧ run = abandonPrimaryRun) ∨
    (s.pcOk = true ∧ t = ClientType.STUDENT ∧
       run = studentServedRun s.waitMs) ∨
    (s.pcOk = true ∧ t ≠ ClientType.STUDENT ∧ ndMulti s = some run) := by
  unfold allocNoDeadlock at h
  cases hpc : s.pcOk
  · rw [hpc] at h
    exact Or.inl ⟨rfl, (Option.some.inj (by simpa using h)).symm⟩
  · rw [hpc] at h
    cases t
    · exact Or.inr (Or.inr ⟨rfl, by simp, by simpa using h⟩)
    · exact Or.inr (Or.inr ⟨rfl, by simp, by simpa using h⟩)
    · exact Or.inr (Or.inl ⟨rfl, rfl, (Option.some.inj (by simpa using h)).symm⟩)

theorem allocDeadlock_cases (t : ClientType) (s : DlSchedule)
    (run : SessionRun) (h : allocDeadlock t s = some run) :
    (t = ClientType.STUDENT ∧ s.pcOk = true ∧
       run = studentServedRun s.waitMs) ∨
    (t = ClientType.STUDENT ∧ s.pcOk = false ∧ run = abandonPrimaryRun) ∨
    (t = ClientType.GAMER ∧ s.pcOk = true ∧
       run = gamerDlServedRun s.waitMs) ∨
    (t = ClientType.GAMER ∧ s.pcOk = false ∧ run = gamerDlAbandonRun) ∨
    (t = ClientType.FREELANCER ∧ s.pcOk = true ∧
       run = freelancerDlServedRun s.waitMs) ∨
    (t = ClientType.FREELANCER ∧ s.pcOk = false ∧
       run = freelancerDlAbandonRun) := by
  unfold allocDeadlock at h
  cases t <;> cases hA : s.blockA <;> cases hB : s.blockB <;>
    cases hpc : s.pcOk <;> rw [hA, hB, hpc] at h <;> simp at h <;>
    simp_all

theorem abandonSecondaryRun_balanced (es : List Event)
    (hes : ∀ r, acqCount es r = relCount es r) (r : Resource) :
    acqCount (abandonSecondaryRun es).events r =
      relCount (abandonSecondaryRun es).events r := by
  have h := hes r
  cases r <;>
    simp only [abandonSecondaryRun, acqCount, relCount, List.countP_cons,
      List.countP_append, List.countP_nil] at h ⊢ <;>
    simp_all

theorem servedMultiRun_balanced (es : List Event) (w : Nat)
    (hes : ∀ r, acqCount es r =
       relCount es r + (if r = Resource.PC then 0 else 1)) (r : Resource) :
    acqCount (servedMultiRun es w).events r =
      relCount (servedMultiRun es w).events r := by
  have h := hes r
  cases r <;>
    simp only [servedMultiRun, acqCount, relCount, List.countP_cons,
      List.countP_append, List.countP_nil] at h ⊢ <;>
    simp_all

/-- C1: in the AllOrNothing protocol, for every GAMER or FREELANCER
session: if the timed PC acquire fails the session's run is exactly
abandonPrimaryRun — outcome Abandoned TimedOutOnPrimary, no semaphore
event, only starvedClients++; in every secondary pass that fails, the
events of that pass release exactly the secondaries it grabbed (acquire
and release counts agree per resource); and every run that ends
Abandoned TimedOutOnSecondary has all acquires matched by releases, its
last event being the release of the PC (workstation). -/
theorem c1_allOrNothing_timeout_paths (t : ClientType)
    (ht : t = ClientType.GAMER ∨ t = ClientType.FREELANCER)
    (s : NdSchedule) :
    (s.pcOk = false → allocNoDeadlock t s = some abandonPrimaryRun) ∧
    (∀ p : SecPass, (p.vrOk && p.gcOk) = false →
       ∀ r, acqCount (passFailEvents p) r = relCount (passFailEvents p) r) ∧
    (∀ run, allocNoDeadlock t s = some run →
       run.outcome = Outcome.Abandoned AbandonReason.TimedOutOnSecondary →
       (∀ r, acqCount run.events r = relCount run.events r) ∧
       run.events.getLast? = some (Event.release Resource.PC)) := by
  refine ⟨?_, ?_, ?_⟩
  · intro hpc
    rcases ht with rfl | rfl <;> simp [allocNoDeadlock, hpc]
  · intro p hp r
    exact passFailEvents_balanced p r
  · intro run h hout
    rcases allocNoDeadlock_cases t s run h with
      ⟨hpc, rfl⟩ | ⟨hpc, ht2, rfl⟩ | ⟨hpc, ht2, hm⟩
    · simp [abandonPrimaryRun] at hout
    · simp [studentServedRun] at hout
    · rcases ndMulti_cases s run hm with ⟨es, hl, rfl⟩ | ⟨es, hl, rfl⟩
      · simp [servedMultiRun] at hout
      · refine ⟨abandonSecondaryRun_balanced es
          (secondaryLoop_false_balance s.passes es hl), ?_⟩
        exact last_of_concat (Event.acquire Resource.PC :: es)
          (Event.release Resource.PC)

/-- C1 witness: concrete instance at a FREELANCER whose PC acquire fails. -/
theorem c1_witness :
    allocNoDeadlock ClientType.FREELANCER ⟨false, [], 0⟩ =
      some abandonPrimaryRun :=
  (c1_allOrNothing_timeout_paths ClientType.FREELANCER (Or.inr rfl)
    ⟨false, [], 0⟩).1 rfl

/-- C2: under either protocol, every terminating session's acquires of
each pool are matched one-for-one by its releases (round-trip, no leaked
units); the pools are initialised with capacities PC = 10, VR = 6,
GC = 8; and once every session in a list is balanced this way, every
pool's final availability equals its capacity. -/
theorem c2_roundTrip_balance :
    (∀ t s run, allocNoDeadlock t s = some run →
       ∀ r, acqCount run.events r = relCount run.events r) ∧
    (∀ t s run, allocDeadlock t s = some run →
       ∀ r, acqCount run.events r = relCount run.events r) ∧
    (capOf defaultCaps Resource.PC = 10 ∧ capOf defaultCaps Resource.VR = 6 ∧
       capOf defaultCaps Resource.GC = 8) ∧
    (∀ runs : List SessionRun,
       (∀ run ∈ runs, ∀ r, acqCount run.events r = relCount run.events r) →
       ∀ r, finalAvail defaultCaps runs r = (capOf defaultCaps r : Int)) := by
  refine ⟨?_, ?_, ⟨rfl, rfl, rfl⟩, ?_⟩
  · intro t s run h r
    rcases allocNoDeadlock_cases t s run h with
      ⟨hpc, rfl⟩ | ⟨hpc, ht2, rfl⟩ | ⟨hpc, ht2, hm⟩
    · rfl
    · cases r <;> rfl
    · rcases ndMulti_cases s run hm with ⟨es, hl, rfl⟩ | ⟨es, hl, rfl⟩
      · exact servedMultiRun_balanced es s.waitMs
          (secondaryLoop_true_counts s.passes es hl) r
      · exact abandonSecondaryRun_balanced es
          (secondaryLoop_false_balance s.passes es hl) r
  · intro t s run h r
    rcases allocDeadlock_cases t s run h with
      ⟨-, -, rfl⟩ | ⟨-, -, rfl⟩ | ⟨-, -, rfl⟩ | ⟨-, -, rfl⟩ |
      ⟨-, -, rfl⟩ | ⟨-, -, rfl⟩ <;> cases r <;> rfl
  · have key : ∀ (runs : List SessionRun) (r : Resource),
        (∀ run ∈ runs, ∀ r, acqCount run.events r = relCount run.events r) →
        ((runs.map fun run =>
          ((relCount run.events r : Int) - (acqCount run.events r : Int))).sum
            = 0) := by
      intro runs r
      induction runs with
      | nil => intro _; simp
      | cons a l ih =>
        intro hb
        simp only [List.map_cons, List.sum_cons]
        rw [hb a (List.mem_cons_self a l) r,
          ih (fun x hx => hb x (List.mem_cons_of_mem a hx))]
        simp
    intro runs hbal r
    unfold finalAvail
    rw [key runs r hbal]
    simp

/-- C2 witness: a served STUDENT run is balanced on the PC pool. -/
theorem c2_witness :
    acqCount [Event.acquire Resource.PC, Event.release Resource.PC]
        Resource.PC =
      relCount [Event.acquire Resource.PC, Event.release Resource.PC]
        Resource.PC :=
  c2_roundTrip_balance.1 ClientType.STUDENT ⟨true, [], 5⟩
    (studentServedRun 5) rfl Resource.PC

/-- C3: every terminating session, under either protocol and category,
performs exactly one update to the served/starved pair and that update
adds exactly 1; every statistics update a session performs adds a
nonnegative amount, so all counters only ever increase during the run;
and over any list of completed sessions the served and starved totals sum
to the number of sessions. -/
theorem c3_stats_report_once :
    (∀ t s run, allocNoDeadlock t s = some run →
       ctrDelta run.updates Counter.served +
         ctrDelta run.updates Counter.starved = 1 ∧
       run.updates.countP (fun u =>
         decide (u.ctr = Counter.served) ||
           decide (u.ctr = Counter.starved)) = 1 ∧
       ∀ u ∈ run.updates, 0 ≤ u.amount) ∧
    (∀ t s run, allocDeadlock t s = some run →
       ctrDelta run.updates Counter.served +
         ctrDelta run.updates Counter.starved = 1 ∧
       run.updates.countP (fun u =>
         decide (u.ctr = Counter.served) ||
           decide (u.ctr = Counter.starved)) = 1 ∧
       ∀ u ∈ run.updates, 0 ≤ u.amount) ∧
    (∀ runs : List SessionRun,
       (∀ run ∈ runs,
         ctrDelta run.updates Counter.served +
           ctrDelta run.updates Counter.starved = 1) →
       (runs.map fun run => ctrDelta run.updates Counter.served +
          ctrDelta run.updates Counter.starved).sum = (runs.length : Int)) := by
  refine ⟨?_, ?_, ?_⟩
  · intro t s run h
    rcases allocNoDeadlock_cases t s run h with
      ⟨-, rfl⟩ | ⟨-, -, rfl⟩ | ⟨-, -, hm⟩
    · exact ⟨rfl, rfl, by
        intro u hu
        fin_cases hu <;> first | decide | exact Int.natCast_nonneg _⟩
    · exact ⟨rfl, rfl, by
        intro u hu
        fin_cases hu <;> first | decide | exact Int.natCast_nonneg _⟩
    · rcases ndMulti_cases s run hm with ⟨es, -, rfl⟩ | ⟨es, -, rfl⟩ <;>
        exact ⟨rfl, rfl, by
          intro u hu
          fin_cases hu <;> first | decide | exact Int.natCast_nonneg _⟩
  · intro t s run h
    rcases allocDeadlock_cases t s run h with
      ⟨-, -, rfl⟩ | ⟨-, -, rfl⟩ | ⟨-, -, rfl⟩ | ⟨-, -, rfl⟩ |
      ⟨-, -, rfl⟩ | ⟨-, -, rfl⟩ <;>
      exact ⟨rfl, rfl, by
        intro u hu
        fin_cases hu <;> first | decide | exact Int.natCast_nonneg _⟩
  · intro runs
    induction runs with
    | nil => intro _; simp
    | cons a l ih =>
      intro hb
      simp only [List.map_cons, List.sum_cons, List.length_cons]
      rw [hb a (List.mem_cons_self a l),
        ih (fun x hx => hb x (List.mem_cons_of_mem a hx))]
      push_cast
      ring

/-- C3 witness: a concrete served STUDENT session reports exactly once. -/
theorem c3_witness :
    ctrDelta (studentServedRun 5).updates Counter.served +
      ctrDelta (studentServedRun 5).updates Counter.starved = 1 :=
  (c3_stats_report_once.1 ClientType.STUDENT ⟨true, [], 5⟩
    (studentServedRun 5) rfl).1

/-- C4 counterexample: a GAMER whose environment always offers the
Headset (VR) but never the Seat (GC).  Per the claim, the Gamer's
mandatory set is {Workstation, Headset} and the Seat is optional
best-effort, so this session should be Served without a Seat; the code
instead insists on the full VR+GC pair and the session abandons with
TimedOutOnSecondary — the Seat is not optional for a GAMER. -/
theorem c4_counterexample :
    allocNoDeadlock ClientType.GAMER ⟨true, [⟨true, false, 1600⟩], 0⟩ =
      some ⟨[Event.acquire Resource.PC, Event.acquire Resource.VR,
             Event.release Resource.VR, Event.release Resource.PC],
            Outcome.Abandoned AbandonReason.TimedOutOnSecondary,
            [⟨Counter.pcUses, 1⟩, ⟨Counter.starved, 1⟩]⟩ := rfl

/-- C4 amended: the category-to-resources map as implemented — a Served
STUDENT holds exactly the Workstation; a Served GAMER or FREELANCER holds
all three resources (Workstation, Headset and Seat are all mandatory for
both, under both protocols); no category has an optional best-effort
resource. -/
theorem c4_required_resource_sets (t : ClientType) :
    (∀ s run held w, allocNoDeadlock t s = some run →
       run.outcome = Outcome.Served held w →
       (t = ClientType.STUDENT → held = [Resource.PC]) ∧
       (t ≠ ClientType.STUDENT → ∀ r, r ∈ held)) ∧
    (∀ s run held w, allocDeadlock t s = some run →
       run.outcome = Outcome.Served held w →
       (t = ClientType.STUDENT → held = [Resource.PC]) ∧
       (t ≠ ClientType.STUDENT → ∀ r, r ∈ held)) := by
  constructor
  · intro s run held w h hout
    rcases allocNoDeadlock_cases t s run h with
      ⟨-, rfl⟩ | ⟨-, ht2, rfl⟩ | ⟨-, ht2, hm⟩
    · simp [abandonPrimaryRun] at hout
    · simp only [studentServedRun, Outcome.Served.injEq] at hout
      exact ⟨fun _ => hout.1.symm, fun hne => absurd ht2 hne⟩
    · rcases ndMulti_cases s run hm with ⟨es, -, rfl⟩ | ⟨es, -, rfl⟩
      · simp only [servedMultiRun, Outcome.Served.injEq] at hout
        refine ⟨fun hstu => absurd hstu ht2, fun _ r => ?_⟩
        rw [← hout.1]
        cases r <;> simp
      · simp [abandonSecondaryRun] at hout
  · intro s run held w h hout
    rcases allocDeadlock_cases t s run h with
      ⟨rfl, -, rfl⟩ | ⟨rfl, -, rfl⟩ | ⟨rfl, -, rfl⟩ | ⟨rfl, -, rfl⟩ |
      ⟨rfl, -, rfl⟩ | ⟨rfl, -, rfl⟩
    · simp only [studentServedRun, Outcome.Served.injEq] at hout
      exact ⟨fun _ => hout.1.symm, fun hne => absurd rfl hne⟩
    · simp [abandonPrimaryRun] at hout
    · simp only [gamerDlServedRun, Outcome.Served.injEq] at hout
      refine ⟨(fun hstu => nomatch hstu), fun _ r => ?_⟩
      rw [← hout.1]
      cases r <;> simp
    · simp [gamerDlAbandonRun] at hout
    · simp only [freelancerDlServedRun, Outcome.Served.injEq] at hout
      refine ⟨(fun hstu => nomatch hstu), fun _ r => ?_⟩
      rw [← hout.1]
      cases r <;> simp
    · simp [freelancerDlAbandonRun] at hout

/-- C4 witness: a concrete served GAMER holds the Seat (GC) as well. -/
theorem c4_witness :
    Resource.GC ∈ [Resource.PC, Resource.VR, Resource.GC] :=
  ((c4_required_resource_sets ClientType.GAMER).1 ⟨true, [⟨true, true, 0⟩], 4⟩
    (servedMultiRun [Event.acquire Resource.VR, Event.acquire Resource.GC] 4)
    [Resource.PC, Resource.VR, Resource.GC] 4 rfl rfl).2
    (by decide) Resource.GC

/-- C5: in the conflicting-order protocol a GAMER acquires Seat (GC,
blocking), then Workstation (PC, timed; on timeout the Seat is released
and the outcome is Abandoned TimedOutOnPrimary), then Headset (VR,
blocking); a FREELANCER acquires Headset, then Seat, then Workstation
(on timeout both are released, Abandoned TimedOutOnPrimary); and only
the Workstation step is time-bounded: every abandonment in this mode,
for every category, is TimedOutOnPrimary caused by the timed PC wait
failing. -/
theorem c5_ordered_conflicting (s : DlSchedule) :
    (∀ run held w, allocDeadlock ClientType.GAMER s = some run →
       run.outcome = Outcome.Served held w →
       acquiresOf run.events = [Resource.GC, Resource.PC, Resource.VR]) ∧
    (∀ run reason, allocDeadlock ClientType.GAMER s = some run →
       run.outcome = Outcome.Abandoned reason →
       reason = AbandonReason.TimedOutOnPrimary ∧
       run.events = [Event.acquire Resource.GC, Event.release Resource.GC] ∧
       s.pcOk = false) ∧
    (∀ run held w, allocDeadlock ClientType.FREELANCER s = some run →
       run.outcome = Outcome.Served held w →
       acquiresOf run.events = [Resource.VR, Resource.GC, Resource.PC]) ∧
    (∀ run reason, allocDeadlock ClientType.FREELANCER s = some run →
       run.outcome = Outcome.Abandoned reason →
       reason = AbandonReason.TimedOutOnPrimary ∧
       run.events = [Event.acquire Resource.VR, Event.acquire Resource.GC,
         Event.release Resource.GC, Event.release Resource.VR] ∧
       s.pcOk = false) ∧
    (∀ t run reason, allocDeadlock t s = some run →
       run.outcome = Outcome.Abandoned reason →
       reason = AbandonReason.TimedOutOnPrimary ∧ s.pcOk = false) := by
  refine ⟨?_, ?_, ?_, ?_, ?_⟩
  · intro run held w h hout
    rcases allocDeadlock_cases ClientType.GAMER s run h with
      ⟨h1, -, -⟩ | ⟨h1, -, -⟩ | ⟨-, -, rfl⟩ | ⟨-, -, rfl⟩ |
      ⟨h1, -, -⟩ | ⟨h1, -, -⟩
    · cases h1
    · cases h1
    · rfl
    · simp [gamerDlAbandonRun] at hout
    · cases h1
    · cases h1
  · intro run reason h hout
    rcases allocDeadlock_cases ClientType.GAMER s run h with
      ⟨h1, -, -⟩ | ⟨h1, -, -⟩ | ⟨-, -, rfl⟩ | ⟨-, hpc, rfl⟩ |
      ⟨h1, -, -⟩ | ⟨h1, -, -⟩
    · cases h1
    · cases h1
    · simp [gamerDlServedRun] at hout
    · simp only [gamerDlAbandonRun, Outcome.Abandoned.injEq] at hout
      exact ⟨hout.symm, rfl, hpc⟩
    · cases h1
    · cases h1
  · intro run held w h hout
    rcases allocDeadlock_cases ClientType.FREELANCER s run h with
      ⟨h1, -, -⟩ | ⟨h1, -, -⟩ | ⟨h1, -, -⟩ | ⟨h1, -, -⟩ |
      ⟨-, -, rfl⟩ | ⟨-, -, rfl⟩
    · cases h1
    · cases h1
    · cases h1
    · cases h1
    · rfl
    · simp [freelancerDlAbandonRun] at hout
  · intro run reason h hout
    rcases allocDeadlock_cases ClientType.FREELANCER s run h with
      ⟨h1, -, -⟩ | ⟨h1, -, -⟩ | ⟨h1, -, -⟩ | ⟨h1, -, -⟩ |
      ⟨-, -, rfl⟩ | ⟨-, hpc, rfl⟩
    · cases h1
    · cases h1
    · cases h1
    · cases h1
    · simp [freelancerDlServedRun] at hout
    · simp only [freelancerDlAbandonRun, Outcome.Abandoned.injEq] at hout
      exact ⟨hout.symm, rfl, hpc⟩
  · intro t run reason h hout
    rcases allocDeadlock_cases t s run h with
      ⟨-, -, rfl⟩ | ⟨-, hpc, rfl⟩ | ⟨-, -, rfl⟩ | ⟨-, hpc, rfl⟩ |
      ⟨-, -, rfl⟩ | ⟨-, hpc, rfl⟩
    · simp [studentServedRun] at hout
    · simp only [abandonPrimaryRun, Outcome.Abandoned.injEq] at hout
      exact ⟨hout.symm, hpc⟩
    · simp [gamerDlServedRun] at hout
    · simp only [gamerDlAbandonRun, Outcome.Abandoned.injEq] at hout
      exact ⟨hout.symm, hpc⟩
    · simp [freelancerDlServedRun] at hout
    · simp only [freelancerDlAbandonRun, Outcome.Abandoned.injEq] at hout
      exact ⟨hout.symm, hpc⟩

/-- C5 witness: a concrete GAMER abandon run in the conflicting-order
mode releases its Seat and times out on the primary. -/
theorem c5_witness :
    AbandonReason.TimedOutOnPrimary = AbandonReason.TimedOutOnPrimary ∧
    gamerDlAbandonRun.events =
      [Event.acquire Resource.GC, Event.release Resource.GC] ∧
    (⟨true, true, false, 0⟩ : DlSchedule).pcOk = false :=
  (c5_ordered_conflicting ⟨true, true, false, 0⟩).2.1 gamerDlAbandonRun
    AbandonReason.TimedOutOnPrimary rfl rfl

/-- C6 counterexample: in the conflicting-order mode a GAMER that blocks
through its Seat (GC) acquire and then times out on the PC ends Abandoned
— yet gcUses was already incremented when the Seat was acquired, so an
abandoned session does contribute a resource-usage count, contradicting
the claim that none of pcUses, vrUses, gcUses is incremented on behalf of
an abandoned session. -/
theorem c6_counterexample :
    (allocDeadlock ClientType.GAMER ⟨true, true, false, 0⟩).map
      (fun run => (run.outcome, ctrDelta run.updates Counter.gcUses)) =
      some (Outcome.Abandoned AbandonReason.TimedOutOnPrimary, 1) := rfl

/-- C6 amended: an abandoned session reports only starved (served and
cumulative wait unchanged, starved incremented once), but it contributes
a usage count for every resource it acquired before abandoning, because
usage counters are incremented at acquisition time: in the all-or-nothing
protocol a primary-timeout abandon contributes no usage count while a
secondary-timeout abandon contributes one pcUses; in the conflicting-order
protocol an abandoning STUDENT contributes nothing, an abandoning GAMER
one gcUses, and an abandoning FREELANCER one vrUses and one gcUses. -/
theorem c6_abandoned_usage (t : ClientType) :
    (∀ s run reason, allocNoDeadlock t s = some run →
       run.outcome = Outcome.Abandoned reason →
       ctrDelta run.updates Counter.served = 0 ∧
       ctrDelta run.updates Counter.waitTime = 0 ∧
       ctrDelta run.updates Counter.starved = 1 ∧
       ctrDelta run.updates Counter.vrUses = 0 ∧
       ctrDelta run.updates Counter.gcUses = 0 ∧
       (reason = AbandonReason.TimedOutOnPrimary →
          ctrDelta run.updates Counter.pcUses = 0) ∧
       (reason = AbandonReason.TimedOutOnSecondary →
          ctrDelta run.updates Counter.pcUses = 1)) ∧
    (∀ s run reason, allocDeadlock t s = some run →
       run.outcome = Outcome.Abandoned reason →
       ctrDelta run.updates Counter.served = 0 ∧
       ctrDelta run.updates Counter.waitTime = 0 ∧
       ctrDelta run.updates Counter.starved = 1 ∧
       ctrDelta run.updates Counter.pcUses = 0 ∧
       (t = ClientType.STUDENT →
          ctrDelta run.updates Counter.vrUses = 0 ∧
          ctrDelta run.updates Counter.gcUses = 0) ∧
       (t = ClientType.GAMER →
          ctrDelta run.updates Counter.vrUses = 0 ∧
          ctrDelta run.updates Counter.gcUses = 1) ∧
       (t = ClientType.FREELANCER →
          ctrDelta run.updates Counter.vrUses = 1 ∧
          ctrDelta run.updates Counter.gcUses = 1)) := by
  constructor
  · intro s run reason h hout
    rcases allocNoDeadlock_cases t s run h with
      ⟨-, rfl⟩ | ⟨-, -, rfl⟩ | ⟨-, -, hm⟩
    · injection hout with h2
      subst h2
      exact ⟨rfl, rfl, rfl, rfl, rfl, (fun _ => rfl), fun h3 => nomatch h3⟩
    · simp [studentServedRun] at hout
    · rcases ndMulti_cases s run hm with ⟨es, -, rfl⟩ | ⟨es, -, rfl⟩
      · simp [servedMultiRun] at hout
      · injection hout with h2
        subst h2
        exact ⟨rfl, rfl, rfl, rfl, rfl, (fun h3 => nomatch h3), fun _ => rfl⟩
  · intro s run reason h hout
    rcases allocDeadlock_cases t s run h with
      ⟨rfl, -, rfl⟩ | ⟨rfl, -, rfl⟩ | ⟨rfl, -, rfl⟩ | ⟨rfl, -, rfl⟩ |
      ⟨rfl, -, rfl⟩ | ⟨rfl, -, rfl⟩
    · simp [studentServedRun] at hout
    · injection hout with h2
      subst h2
      exact ⟨rfl, rfl, rfl, rfl, (fun _ => ⟨rfl, rfl⟩),
        (fun h3 => nomatch h3), fun h3 => nomatch h3⟩
    · simp [gamerDlServedRun] at hout
    · injection hout with h2
      subst h2
      exact ⟨rfl, rfl, rfl, rfl, (fun h3 => nomatch h3),
        (fun _ => ⟨rfl, rfl⟩), fun h3 => nomatch h3⟩
    · simp [freelancerDlServedRun] at hout
    · injection hout with h2
      subst h2
      exact ⟨rfl, rfl, rfl, rfl, (fun h3 => nomatch h3),
        (fun h3 => nomatch h3), fun _ => ⟨rfl, rfl⟩⟩

/-- C6 witness: a concrete all-or-nothing GAMER abandoned on the
secondaries reports starved exactly once. -/
theorem c6_witness :
    ctrDelta (abandonSecondaryRun [Event.acquire Resource.VR,
      Event.release Resource.VR]).updates Counter.starved = 1 :=
  ((c6_abandoned_usage ClientType.GAMER).1 ⟨true, [⟨true, false, 1600⟩], 0⟩
    (abandonSecondaryRun [Event.acquire Resource.VR,
      Event.release Resource.VR])
    AbandonReason.TimedOutOnSecondary rfl rfl).2.2.1

/-- C7: on every Served path of either protocol the session's whole event
trace obeys stack discipline: each release matches the most recently
acquired still-held resource and nothing is left held, i.e. resources are
released in strict reverse order of their acquisition (e.g. a
conflicting-order GAMER acquires Seat, Workstation, Headset and releases
Headset, Workstation, Seat). -/
theorem c7_reverse_release_order :
    (∀ t s run held w, allocNoDeadlock t s = some run →
       run.outcome = Outcome.Served held w → lifoOk run.events [] = true) ∧
    (∀ t s run held w, allocDeadlock t s = some run →
       run.outcome = Outcome.Served held w → lifoOk run.events [] = true) := by
  constructor
  · intro t s run held w h hout
    rcases allocNoDeadlock_cases t s run h with
      ⟨-, rfl⟩ | ⟨-, -, rfl⟩ | ⟨-, -, hm⟩
    · simp [abandonPrimaryRun] at hout
    · rfl
    · rcases ndMulti_cases s run hm with ⟨es, hl, rfl⟩ | ⟨es, hl, rfl⟩
      · show lifoOk (es ++ [Event.release Resource.GC,
          Event.release Resource.VR, Event.release Resource.PC])
          [Resource.PC] = true
        rw [secondaryLoop_lifo s.passes es true hl]
        rfl
      · simp [abandonSecondaryRun] at hout
  · intro t s run held w h hout
    rcases allocDeadlock_cases t s run h with
      ⟨-, -, rfl⟩ | ⟨-, -, rfl⟩ | ⟨-, -, rfl⟩ | ⟨-, -, rfl⟩ |
      ⟨-, -, rfl⟩ | ⟨-, -, rfl⟩
    · rfl
    · simp [abandonPrimaryRun] at hout
    · rfl
    · simp [gamerDlAbandonRun] at hout
    · rfl
    · simp [freelancerDlAbandonRun] at hout

/-- C7 witness: a concrete served GAMER in the conflicting-order mode. -/
theorem c7_witness :
    lifoOk (gamerDlServedRun 3).events [] = true :=
  c7_reverse_release_order.2 ClientType.GAMER ⟨true, true, true, 3⟩
    (gamerDlServedRun 3) [Resource.GC, Resource.PC, Resource.VR] 3 rfl rfl

/-- C8: with the PC (Workstation) pool at capacity 0 and the other pools
nonempty, a single session of any category, in either mode, terminates
Abandoned TimedOutOnPrimary, increments starved by exactly 1 and served
by 0, and leaves every pool's availability equal to its capacity. -/
theorem c8_degenerate_pc_zero (caps : Pools) (hpc : caps.pc = 0)
    (hvr : 0 < caps.vr) (hgc : 0 < caps.gc) (force : Bool)
    (t : ClientType) (w : Nat) :
    (clientRoutineSingle force t caps w).map
      (fun run => (run.outcome, ctrDelta run.updates Counter.starved,
        ctrDelta run.updates Counter.served)) =
      some (Outcome.Abandoned AbandonReason.TimedOutOnPrimary, 1, 0) ∧
    ∀ r, (clientRoutineSingle force t caps w).map
      (fun run => finalAvail caps [run] r) = some ((capOf caps r : Int)) := by
  have hpcd : decide (0 < caps.pc) = false := by simp [hpc]
  have hvrd : decide (0 < caps.vr) = true := by simp [hvr]
  have hgcd : decide (0 < caps.gc) = true := by simp [hgc]
  constructor
  · cases force <;> cases t <;>
      simp [clientRoutineSingle, singleDlSchedule, singleNdSchedule,
        allocDeadlock, allocNoDeadlock, hpcd, hvrd, hgcd, abandonPrimaryRun,
        gamerDlAbandonRun, freelancerDlAbandonRun, ctrDelta]
  · intro r
    cases force <;> cases t <;> cases r <;>
      simp [clientRoutineSingle, singleDlSchedule, singleNdSchedule,
        allocDeadlock, allocNoDeadlock, hpcd, hvrd, hgcd, abandonPrimaryRun,
        gamerDlAbandonRun, freelancerDlAbandonRun, finalAvail, acqCount,
        relCount, capOf]

/-- C8 witness: concrete degenerate scenario with PC capacity 0, VR 6,
GC 8, one GAMER in the conflicting-order mode. -/
theorem c8_witness :
    ((clientRoutineSingle true ClientType.GAMER ⟨0, 6, 8⟩ 0).map
      (fun run => (run.outcome, ctrDelta run.updates Counter.starved,
        ctrDelta run.updates Counter.served)) =
      some (Outcome.Abandoned AbandonReason.TimedOutOnPrimary, 1, 0)) ∧
    (clientRoutineSingle true ClientType.GAMER ⟨0, 6, 8⟩ 0).map
      (fun run => finalAvail ⟨0, 6, 8⟩ [run] Resource.GC) =
      some ((capOf ⟨0, 6, 8⟩ Resource.GC : Int)) :=
  ⟨(c8_degenerate_pc_zero ⟨0, 6, 8⟩ rfl (by decide) (by decide) true
      ClientType.GAMER 0).1,
   (c8_degenerate_pc_zero ⟨0, 6, 8⟩ rfl (by decide) (by decide) true
      ClientType.GAMER 0).2 Resource.GC⟩

/-- C9: with no command-line options, parseArgs leaves gParams at its
initial value {20, 50, 8, 0, 0}: minClients = 20, maxClients = 50,
openHours = 8, forceDeadlock = 0 (i.e. force_conflicting_order off) and
verbosity = 0 (verbose off); the simulation window is openHours * 3
seconds, 24 for the default 8 open hours. -/
theorem c9_defaults :
    parseArgs [] gParamsInit = some gParamsInit ∧
    gParamsInit.minClients = 20 ∧ gParamsInit.maxClients = 50 ∧
    gParamsInit.openHours = 8 ∧ gParamsInit.forceDeadlock = 0 ∧
    gParamsInit.verbosity = 0 ∧
    totalSimSecs gParamsInit = gParamsInit.openHours * 3 ∧
    totalSimSecs gParamsInit = 24 := by
  refine ⟨rfl, rfl, rfl, rfl, rfl, rfl, ?_, ?_⟩ <;> decide

/-- C10: when the configured range is inverted (maxClients < minClients),
main performs no modulo draw at all and silently uses minClients as the
total client count, for every value of rand(). -/
theorem c10_inverted_range (p : SimulationParameters) (r : Nat)
    (h : p.maxClients < p.minClients) :
    totalClientsToCreate p r = p.minClients := by
  unfold totalClientsToCreate
  rw [if_neg (not_le.mpr h)]

/-- C10 witness: min 30, max 10 gives 30 regardless of the draw. -/
theorem c10_witness :
    totalClientsToCreate ⟨30, 10, 8, 0, 0⟩ 7 = (30 : Int) :=
  c10_inverted_range ⟨30, 10, 8, 0, 0⟩ 7 (by decide)

end CyberFlux
